import Mathlib

/-!
Verification of the zid theme-sync scripts (index.js and the one-shot theme
listing tool): session/cookie handling, auth gating, upload retry logic,
archive-deletion retry, snapshot loading, startup checks, and the debounced
file-watcher upload loop.  Every definition is a shallow embedding of the
corresponding JavaScript source.
-/

namespace Vineta

/-- A browser cookie as the scripts use it: only `name` and `value` are ever
read (`serializeCookies`, `find c.name === 'XSRF-TOKEN'`).  The value is kept
as a list of characters so percent-decoding can be stated structurally. -/
structure Cookie where
  name : String
  value : List Char
  deriving Repr, DecidableEq

/-- `serializeCookies` of index.js: `cookies.map(({name,value}) => name+"="+value).join("; ")`. -/
def serializeCookies (cs : List Cookie) : List Char :=
  match cs with
  | [] => []
  | [c] => c.name.data ++ '=' :: c.value
  | c :: rest => c.name.data ++ '=' :: c.value ++ ';' :: ' ' :: serializeCookies rest

/-! ### A model of ECMAScript `decodeURIComponent`

`decodeURIComponent` first turns every `%XX` hex escape into a byte and then
UTF-8-decodes the resulting byte/literal sequence; a lone or malformed escape,
an invalid hex digit, or bytes that are not well-formed UTF-8 raise `URIError`.
We model it in two stages: tokenising the character list into literal
characters and escape bytes, then strict UTF-8 decoding of the byte runs. -/

/-- One token of a percent-encoded string: either a literal character or a
byte produced by a `%XX` escape. -/
inductive UriItem where
  | lit (c : Char)
  | byte (b : Nat)
  deriving Repr, DecidableEq

/-- Value of one hex digit, `none` if the character is not a hex digit. -/
def hexVal (c : Char) : Option Nat :=
  if '0' ≤ c ∧ c ≤ '9' then some (c.toNat - 48)
  else if 'A' ≤ c ∧ c ≤ 'F' then some (c.toNat - 55)
  else if 'a' ≤ c ∧ c ≤ 'f' then some (c.toNat - 87)
  else none

/-- Tokenise a percent-encoded string: each `%` must be followed by exactly two
hex digits and becomes a byte token; every other character is literal. -/
def uriTokenize : List Char → Option (List UriItem)
  | [] => some []
  | c :: rest =>
    if c = '%' then
      match rest with
      | h1 :: h2 :: rest2 =>
        match hexVal h1, hexVal h2 with
        | some a, some b =>
          (uriTokenize rest2).map (fun items => UriItem.byte (16 * a + b) :: items)
        | _, _ => none
      | _ => none
    else (uriTokenize rest).map (fun items => UriItem.lit c :: items)

/-- A UTF-8 continuation byte. -/
def isCont (b : Nat) : Prop := 0x80 ≤ b ∧ b ≤ 0xBF

instance (b : Nat) : Decidable (isCont b) := by unfold isCont; infer_instance

/-- One step of strict UTF-8 decoding of the token stream: a literal
character passes through; an escape byte must begin a well-formed UTF-8
scalar-value encoding (no overlong forms, no surrogates, at most U+10FFFF)
whose continuation bytes are themselves escape bytes — a literal character
can never continue a multi-byte sequence, exactly as in the ECMAScript
`Decode` algorithm.  Returns the decoded character and the remaining
tokens, or `none` for a malformed sequence. -/
def utf8Step (items : List UriItem) : Option (Char × List UriItem) :=
  match items with
  | [] => none
  | UriItem.lit c :: rest => some (c, rest)
  | UriItem.byte b :: rest =>
    if b ≤ 0x7F then some (Char.ofNat b, rest)
    else if 0xC2 ≤ b ∧ b ≤ 0xDF then
      match rest with
      | UriItem.byte b2 :: rest2 =>
        if isCont b2 then some (Char.ofNat ((b - 0xC0) * 64 + (b2 - 0x80)), rest2) else none
      | _ => none
    else if 0xE0 ≤ b ∧ b ≤ 0xEF then
      match rest with
      | UriItem.byte b2 :: UriItem.byte b3 :: rest2 =>
        if isCont b2 ∧ isCont b3 ∧
            0x800 ≤ (b - 0xE0) * 4096 + (b2 - 0x80) * 64 + (b3 - 0x80) ∧
            ¬ (0xD800 ≤ (b - 0xE0) * 4096 + (b2 - 0x80) * 64 + (b3 - 0x80) ∧
               (b - 0xE0) * 4096 + (b2 - 0x80) * 64 + (b3 - 0x80) ≤ 0xDFFF) then
          some (Char.ofNat ((b - 0xE0) * 4096 + (b2 - 0x80) * 64 + (b3 - 0x80)), rest2)
        else none
      | _ => none
    else if 0xF0 ≤ b ∧ b ≤ 0xF4 then
      match rest with
      | UriItem.byte b2 :: UriItem.byte b3 :: UriItem.byte b4 :: rest2 =>
        if isCont b2 ∧ isCont b3 ∧ isCont b4 ∧
            0x10000 ≤ (b - 0xF0) * 262144 + (b2 - 0x80) * 4096 + (b3 - 0x80) * 64 +
              (b4 - 0x80) ∧
            (b - 0xF0) * 262144 + (b2 - 0x80) * 4096 + (b3 - 0x80) * 64 + (b4 - 0x80) ≤
              0x10FFFF then
          some
            (Char.ofNat
              ((b - 0xF0) * 262144 + (b2 - 0x80) * 4096 + (b3 - 0x80) * 64 + (b4 - 0x80)),
              rest2)
        else none
      | _ => none
    else none

/-- Iterate `utf8Step` until the tokens are exhausted.  The fuel only bounds
the iteration count for termination; since every step consumes at least one
token, fuel equal to the token count is always sufficient. -/
def utf8DecodeLoop : Nat → List UriItem → Option (List Char)
  | _, [] => some []
  | 0, _ :: _ => none
  | fuel + 1, i :: rest =>
    match utf8Step (i :: rest) with
    | none => none
    | some (c, rest2) => (utf8DecodeLoop fuel rest2).map (fun t => c :: t)

/-- Full strict UTF-8 decoding of a token stream. -/
def utf8DecodeItems (items : List UriItem) : Option (List Char) :=
  utf8DecodeLoop items.length items

/-- Model of `decodeURIComponent`: `none` is a thrown `URIError`. -/
def decodeURIComponent (s : List Char) : Option (List Char) :=
  (uriTokenize s).bind utf8DecodeItems

/-- Number of byte tokens (i.e. of `%XX` escapes) in a token list. -/
def countBytes (items : List UriItem) : Nat :=
  items.countP fun i => match i with | UriItem.byte _ => true | UriItem.lit _ => false

/-- How `extractTokensFromCookies` can fail: no `XSRF-TOKEN` cookie
(a `SessionError`: `throw new Error('XSRF-TOKEN not found in cookies')`), or
`decodeURIComponent` throwing on a malformed value (`URIError`). -/
inductive ExtractErr where
  | sessionError
  | uriError
  deriving Repr, DecidableEq

/-- The module-level mutable state of the scripts: `let cookie = ''` and
`let xsrfToken = ''`. -/
structure SessionState where
  cookie : List Char
  xsrfToken : List Char
  deriving Repr, DecidableEq

/-- `cookies.find(c => c.name === 'XSRF-TOKEN')`. -/
def findXsrf (cs : List Cookie) : Option Cookie :=
  cs.find? (fun c => c.name = "XSRF-TOKEN")

/-- `extractTokensFromCookies` as a state transformer: it first overwrites the
module-level `cookie` with the serialization, then looks up `XSRF-TOKEN`
(throwing if absent, with `xsrfToken` untouched), then decodes the value into
`xsrfToken` (a malformed value makes `decodeURIComponent` throw, again with
`xsrfToken` untouched). -/
def extractTokensFromCookies (st : SessionState) (cs : List Cookie) :
    SessionState × Option ExtractErr :=
  let st1 : SessionState := { st with cookie := serializeCookies cs }
  match findXsrf cs with
  | none => (st1, some ExtractErr.sessionError)
  | some c =>
    match decodeURIComponent c.value with
    | none => (st1, some ExtractErr.uriError)
    | some tok => ({ st1 with xsrfToken := tok }, none)

/-! ### `ensureAuth` (index.js lines 154–179, identical in the listing tool) -/

/-- Outcome of the `GET /api/v1/account` probe as axios presents it to the
`try` block: `status n` is a resolved response with HTTP status `n` (axios
resolves it only because `validateStatus: s => s < 500`; a status ≥ 500 is a
rejection and lands in the `catch`), `threw` is a network-level rejection. -/
inductive Probe where
  | status (n : Nat)
  | threw
  deriving Repr, DecidableEq

/-- `ensureAuth(forceLogin)`, returning how many times
`performLoginWithPuppeteer` (the Authenticator) runs.  `cached` is what
`loadCookiesFromFile` returns; the probe outcome is an oracle parameter.
The cookie-extraction step inside the `try` uses `extractTokensFromCookies`,
whose thrown errors are caught and fall through to login. -/
def ensureAuthLogins (st : SessionState) (forceLogin : Bool)
    (cached : Option (List Cookie)) (probe : Probe) : Nat :=
  if forceLogin then 1
  else
    match cached with
    | none => 1
    | some saved =>
      match (extractTokensFromCookies st saved).2 with
      | some _ => 1
      | none =>
        match probe with
        | Probe.threw => 1
        | Probe.status n =>
          if 500 ≤ n then 1
          else if n = 200 then 0 else 1

/-! ### `zipTheme` archive-deletion retry loop (index.js lines 181–208) -/

/-- Result of the `while (retries > 0)` deletion loop: how many `unlinkSync`
calls were made, how many 1-second sleeps happened, and whether the loop ended
by rethrowing the lock error. -/
structure DeleteResult where
  attempts : Nat
  sleeps : Nat
  threw : Bool
  deriving Repr, DecidableEq

/-- The deletion loop of `zipTheme`.  `locked i` says whether the `i`-th
`unlinkSync` call (0-based) fails with `EBUSY`.  Structure of the source:
`retries` starts at 5; on an `EBUSY` failure with `retries > 1` the code
sleeps 1 s and decrements, otherwise it rethrows. -/
def deleteLoop (locked : Nat → Bool) : Nat → Nat → Nat → DeleteResult
  | 0, attempt, slept => ⟨attempt, slept, false⟩
  | retries + 1, attempt, slept =>
    if locked attempt then
      if retries + 1 > 1 then deleteLoop locked retries (attempt + 1) (slept + 1)
      else ⟨attempt + 1, slept, true⟩
    else ⟨attempt + 1, slept, false⟩

/-- `zipTheme`'s deletion phase when the archive exists: the loop above with
`retries = 5`. -/
def zipThemeDelete (locked : Nat → Bool) : DeleteResult :=
  deleteLoop locked 5 0 0

/-! ### `uploadTheme` failure handling (index.js lines 233–289) -/

/-- Observable actions of one `uploadTheme` run. -/
inductive Act where
  | ensure (force : Bool)
  | zip
  | post
  | listThemes
  | invalidateSnapshot
  | logError
  deriving Repr, DecidableEq

/-- What one upload attempt yields.  `failMarker`: response with
`status ≠ 'success'` whose message contains the theme-not-found marker
`'لم يتم إيجاد الثييم المطلوب'`; `failOther`: any other non-success response;
`err401`: the POST rejected with HTTP 401; `errOther`: any other thrown
error (network, archiver…). -/
inductive Resp where
  | success
  | failMarker
  | failOther
  | err401
  | errOther
  deriving Repr, DecidableEq

/-- The action trace of `uploadTheme`, with one element of `responses`
consumed per upload attempt.  Every call runs `ensureAuth()` (not forced),
zips, posts; then on `failMarker` it lists themes and returns; on `failOther`
it removes `cookies.json` if present, runs `ensureAuth(true)` and recurses; on
`err401` it runs `ensureAuth(true)` and recurses; on `errOther` it logs and
returns.  An exhausted response list models a run cut short. -/
def uploadThemeTrace : List Resp → List Act
  | [] => [Act.ensure false, Act.zip]
  | r :: rest =>
    Act.ensure false :: Act.zip :: Act.post ::
    (match r with
     | Resp.success => []
     | Resp.failMarker => [Act.listThemes]
     | Resp.failOther => Act.invalidateSnapshot :: Act.ensure true :: uploadThemeTrace rest
     | Resp.err401 => Act.ensure true :: uploadThemeTrace rest
     | Resp.errOther => [Act.logError])

/-! ### `loadCookiesFromFile` (index.js lines 59–67) -/

/-- A JSON value, the possible results of `JSON.parse`. -/
inductive JsonVal where
  | arr (xs : List JsonVal)
  | obj
  | str (s : String)
  | num (n : Int)
  | boolean (b : Bool)
  | null

/-- The state of `cookies.json` as `loadCookiesFromFile` observes it:
missing (`existsSync` false), present but `JSON.parse` throws, or present
and parsed to a JSON value. -/
inductive SnapshotFile where
  | missing
  | unparseable
  | parsed (j : JsonVal)

/-- `loadCookiesFromFile`: `null` (here `none`) when the file is missing or
parsing throws or `Array.isArray` fails; otherwise the parsed array.  Total
by construction — the `try/catch` means it never raises. -/
def loadCookiesFromFile : SnapshotFile → Option (List JsonVal)
  | SnapshotFile.missing => none
  | SnapshotFile.unparseable => none
  | SnapshotFile.parsed (JsonVal.arr xs) => some xs
  | SnapshotFile.parsed JsonVal.obj => none
  | SnapshotFile.parsed (JsonVal.str _) => none
  | SnapshotFile.parsed (JsonVal.num _) => none
  | SnapshotFile.parsed (JsonVal.boolean _) => none
  | SnapshotFile.parsed JsonVal.null => none

/-! ### Startup configuration checks (index.js lines 25–28, listing tool
lines 14–17) -/

/-- The environment variables each check reads; `none` is an unset variable,
`some s` a variable set to the string `s`. -/
structure Env where
  zidEmail : Option String
  zidPassword : Option String
  themeId : Option String
  deriving Repr, DecidableEq

/-- JavaScript truthiness of `process.env.X`: `undefined` and the empty
string are falsy, every other string is truthy. -/
def envTruthy : Option String → Bool
  | none => false
  | some s => !(s = "")

/-- Top-level actions of a script's startup. -/
inductive StartAct where
  | exitCode (n : Nat)
  | network
  | watch
  deriving Repr, DecidableEq

/-- Startup of the sync tool (index.js): `if (!ZID_EMAIL || !ZID_PASSWORD ||
!THEME_ID) { … process.exit(1) }`, then file-system logging and the watcher —
no network call happens until a watch event fires. -/
def syncStartup (e : Env) : List StartAct :=
  if envTruthy e.zidEmail && envTruthy e.zidPassword && envTruthy e.themeId then
    [StartAct.watch]
  else
    [StartAct.exitCode 1]

/-- Startup of the one-shot listing tool: `if (!ZID_EMAIL || !ZID_PASSWORD)
{ … process.exit(1) }`, then `listThemes()` which performs network calls. -/
def listToolStartup (e : Env) : List StartAct :=
  if envTruthy e.zidEmail && envTruthy e.zidPassword then
    [StartAct.network]
  else
    [StartAct.exitCode 1]

/-! ### The debounced watcher loop (index.js lines 291–344)

Single-threaded discrete-time model.  `pending` is the absolute time at which
the current `uploadTimeout` will fire (`clearTimeout` + `setTimeout(…, 1000)`
on every raw event makes at most one pending timer).  `busyUntil` is the time
at which the in-flight upload will finish (`uploadInProgress` is true exactly
on `[start, busyUntil)`); `cycles` records the start time of every upload
cycle that actually ran.  Times are in milliseconds; the upload itself is
modelled as taking `dur` milliseconds. -/

/-- Module-level watcher state: `uploadTimeout` and `uploadInProgress`,
plus the history of started cycles. -/
structure WatchState where
  pending : Option Nat
  busyUntil : Nat
  cycles : List Nat
  deriving Repr, DecidableEq

/-- The timer callback firing at time `f`: if an upload is in flight
(`uploadInProgress`, i.e. `f < busyUntil`) the cycle is skipped — dropped,
not deferred; otherwise a cycle starts at `f` and runs for `dur`. -/
def fireTimer (dur : Nat) (st : WatchState) (f : Nat) : WatchState :=
  if f < st.busyUntil then { st with pending := none }
  else { pending := none, busyUntil := f + dur, cycles := st.cycles ++ [f] }

/-- Deliver the pending timer callback if it is due strictly before time `t`. -/
def fireDue (dur : Nat) (st : WatchState) (t : Nat) : WatchState :=
  match st.pending with
  | some f => if f < t then fireTimer dur st f else st
  | none => st

/-- A raw filesystem event at time `t`: any timer due before `t` has already
fired; then `clearTimeout` + `setTimeout` replace the pending timer with one
firing at `t + debounce`. -/
def rawEvent (debounce dur : Nat) (st : WatchState) (t : Nat) : WatchState :=
  let st1 := fireDue dur st t
  { st1 with pending := some (t + debounce) }

/-- After the last raw event the remaining pending timer, if any, fires. -/
def flushTimer (dur : Nat) (st : WatchState) : WatchState :=
  match st.pending with
  | some f => fireTimer dur st f
  | none => st

/-- Run the watcher on a chronologically ordered list of raw event times and
return the start times of the upload cycles that ran. -/
def runWatcher (debounce dur : Nat) (events : List Nat) : List Nat :=
  (flushTimer dur (events.foldl (rawEvent debounce dur) ⟨none, 0, []⟩)).cycles

/-- Invariant tying recorded cycles to the busy interval: cycle starts are
spaced at least one upload duration apart, and every recorded cycle has
finished by `busyUntil`. -/
def WatchInv (dur : Nat) (st : WatchState) : Prop :=
  List.Chain' (fun a b => a + dur ≤ b) st.cycles ∧ ∀ c ∈ st.cycles, c + dur ≤ st.busyUntil

/-! ## Theorems -/

/-- C1, counterexample: the claim says a non-success, non-marker upload
response leads to "a single retried upload call, not more".  With the
response sequence fail/fail/success the run performs 3 upload POSTs — the
initial one plus two retries — because the retry recurses into the same
handler.  So "exactly once … not more" is false. -/
theorem upload_retry_not_bounded_by_one :
    (uploadThemeTrace [Resp.failOther, Resp.failOther, Resp.success]).count Act.post = 3 ∧
    (uploadThemeTrace [Resp.failOther, Resp.failOther, Resp.success]).count Act.post ≠ 2 := by
  decide

/-- C1, amended: on a non-success upload response without the theme-not-found
marker, `uploadTheme` removes the persisted snapshot, calls
`ensureAuth(true)` and retries via one recursive call; each such failure
produces exactly one retried upload, so when the retried upload succeeds the
whole run has performed exactly one retry (two POSTs in total), but a retry
that fails the same way retries again. -/
theorem upload_fail_other_invalidates_and_retries (rest : List Resp) :
    uploadThemeTrace (Resp.failOther :: rest) =
      Act.ensure false :: Act.zip :: Act.post :: Act.invalidateSnapshot :: Act.ensure true ::
        uploadThemeTrace rest ∧
    uploadThemeTrace (Resp.failOther :: Resp.success :: rest) =
      [Act.ensure false, Act.zip, Act.post, Act.invalidateSnapshot, Act.ensure true,
       Act.ensure false, Act.zip, Act.post] :=
  ⟨rfl, rfl⟩

/-- C2, counterexample: the claim says deletion is retried 5 times after the
initial attempt and fails only on a 6th persistent lock.  With a permanently
locked file the loop makes exactly 5 `unlinkSync` attempts in total (the
initial one plus 4 retries, with 4 one-second sleeps) and rethrows on the
5th, never reaching a 6th. -/
theorem zip_delete_throws_on_fifth_attempt :
    zipThemeDelete (fun _ => true) = ⟨5, 4, true⟩ ∧
    (zipThemeDelete (fun _ => true)).attempts ≠ 6 := by
  decide

/-- C2, amended: the deletion loop makes at most 5 `unlinkSync` attempts in
total (the initial attempt plus up to 4 retries spaced 1 second apart), and a
lock persisting through all of them makes the 5th attempt rethrow the
`EBUSY` error. -/
theorem zip_delete_retry_bound (locked : Nat → Bool) :
    (zipThemeDelete locked).attempts ≤ 5 ∧
    ((∀ i, i < 5 → locked i = true) → zipThemeDelete locked = ⟨5, 4, true⟩) := by
  constructor
  · have key : ∀ (r a s : Nat), (deleteLoop locked r a s).attempts ≤ a + r := by
      intro r
      induction r with
      | zero => intro a s; simp [deleteLoop]
      | succ n ih =>
        intro a s
        simp only [deleteLoop]
        by_cases h : locked a
        · by_cases h2 : n + 1 > 1
          · simp only [h, if_true, h2]
            exact le_trans (ih (a + 1) (s + 1)) (by omega)
          · simp only [h, if_true, h2, if_false]
            omega
        · simp only [h, Bool.false_eq_true, if_false]
          omega
    exact key 5 0 0
  · intro h
    have h0 := h 0 (by omega)
    have h1 := h 1 (by omega)
    have h2 := h 2 (by omega)
    have h3 := h 3 (by omega)
    have h4 := h 4 (by omega)
    simp [zipThemeDelete, deleteLoop, h0, h1, h2, h3, h4]

/-- Witness for `zip_delete_retry_bound` at the permanently locked oracle. -/
theorem zip_delete_retry_bound_witness :
    (zipThemeDelete (fun _ => true)).attempts ≤ 5 ∧
    zipThemeDelete (fun _ => true) = ⟨5, 4, true⟩ :=
  ⟨(zip_delete_retry_bound (fun _ => true)).1,
   (zip_delete_retry_bound (fun _ => true)).2 (fun _ _ => rfl)⟩

/-- C4: `ensureAuth(false)` with a cached cookie set whose extraction
succeeds never runs the Authenticator when the account probe answers
HTTP 200, and runs it exactly once for any other probe status (any non-200
below 500 falls through the status check; a status ≥ 500 is rejected by
`validateStatus` and caught) and for a thrown probe error. -/
theorem ensure_auth_probe_gate (st : SessionState) (cs : List Cookie) (n : Nat)
    (hex : (extractTokensFromCookies st cs).2 = none) :
    ensureAuthLogins st false (some cs) (Probe.status 200) = 0 ∧
    (n ≠ 200 → ensureAuthLogins st false (some cs) (Probe.status n) = 1) ∧
    ensureAuthLogins st false (some cs) Probe.threw = 1 := by
  refine ⟨?_, fun hn => ?_, ?_⟩
  · simp [ensureAuthLogins, hex]
  · simp only [ensureAuthLogins, hex, Bool.false_eq_true, if_false]
    by_cases h5 : 500 ≤ n
    · simp [h5]
    · simp [h5, hn]
  · simp [ensureAuthLogins, hex]

/-- Witness for `ensure_auth_probe_gate`: a cookie set containing
`XSRF-TOKEN=a`, probed with 200 and 403. -/
theorem ensure_auth_probe_gate_witness :
    ensureAuthLogins ⟨[], []⟩ false (some [⟨"XSRF-TOKEN", ['a']⟩]) (Probe.status 200) = 0 ∧
    ensureAuthLogins ⟨[], []⟩ false (some [⟨"XSRF-TOKEN", ['a']⟩]) (Probe.status 403) = 1 ∧
    ensureAuthLogins ⟨[], []⟩ false (some [⟨"XSRF-TOKEN", ['a']⟩]) Probe.threw = 1 :=
  ⟨(ensure_auth_probe_gate ⟨[], []⟩ [⟨"XSRF-TOKEN", ['a']⟩] 403 (by decide)).1,
   (ensure_auth_probe_gate ⟨[], []⟩ [⟨"XSRF-TOKEN", ['a']⟩] 403 (by decide)).2.1 (by decide),
   (ensure_auth_probe_gate ⟨[], []⟩ [⟨"XSRF-TOKEN", ['a']⟩] 403 (by decide)).2.2⟩

/-- C5, counterexample: the claim says derivation succeeds for every cookie
set containing an `XSRF-TOKEN` cookie.  A cookie set whose token value is the
single character `%` does contain such a cookie, yet extraction fails,
because `decodeURIComponent('%')` throws `URIError`. -/
theorem xsrf_present_extraction_still_fails :
    findXsrf [⟨"XSRF-TOKEN", ['%']⟩] = some ⟨"XSRF-TOKEN", ['%']⟩ ∧
    (extractTokensFromCookies ⟨[], []⟩ [⟨"XSRF-TOKEN", ['%']⟩]).2 = some ExtractErr.uriError := by
  decide

/-- C5, amended: a cookie set with no `XSRF-TOKEN` cookie always fails with
the `SessionError` (`'XSRF-TOKEN not found in cookies'`); a cookie set
containing one succeeds provided the cookie's value is a well-formed
percent-encoding (otherwise `decodeURIComponent` throws a `URIError`
instead). -/
theorem extract_tokens_requires_xsrf (st : SessionState) (cs : List Cookie) :
    (findXsrf cs = none →
      (extractTokensFromCookies st cs).2 = some ExtractErr.sessionError) ∧
    (∀ c t, findXsrf cs = some c → decodeURIComponent c.value = some t →
      (extractTokensFromCookies st cs).2 = none) := by
  constructor
  · intro h
    simp [extractTokensFromCookies, h]
  · intro c t hc ht
    simp [extractTokensFromCookies, hc, ht]

/-- Witness for `extract_tokens_requires_xsrf`: the empty cookie set fails,
and a set with `XSRF-TOKEN=a` succeeds. -/
theorem extract_tokens_requires_xsrf_witness :
    (extractTokensFromCookies ⟨[], []⟩ []).2 = some ExtractErr.sessionError ∧
    (extractTokensFromCookies ⟨[], []⟩ [⟨"XSRF-TOKEN", ['a']⟩]).2 = none :=
  ⟨(extract_tokens_requires_xsrf ⟨[], []⟩ []).1 (by decide),
   (extract_tokens_requires_xsrf ⟨[], []⟩ [⟨"XSRF-TOKEN", ['a']⟩]).2
     ⟨"XSRF-TOKEN", ['a']⟩ ['a'] (by decide) (by decide)⟩

/-- C6: a non-success upload response whose message contains the
theme-not-found marker makes `uploadTheme` list the themes and return:
exactly one upload POST (no retry), no snapshot removal, no forced
re-login. -/
theorem upload_theme_not_found_aborts (rest : List Resp) :
    uploadThemeTrace (Resp.failMarker :: rest) =
      [Act.ensure false, Act.zip, Act.post, Act.listThemes] ∧
    (uploadThemeTrace (Resp.failMarker :: rest)).count Act.post = 1 ∧
    Act.listThemes ∈ uploadThemeTrace (Resp.failMarker :: rest) ∧
    Act.invalidateSnapshot ∉ uploadThemeTrace (Resp.failMarker :: rest) ∧
    Act.ensure true ∉ uploadThemeTrace (Resp.failMarker :: rest) := by
  have h : uploadThemeTrace (Resp.failMarker :: rest) =
      [Act.ensure false, Act.zip, Act.post, Act.listThemes] := rfl
  rw [h]
  exact ⟨rfl, by decide, by decide, by decide, by decide⟩

/-- C7: `loadCookiesFromFile` is total (the `try/catch` and the guards make
it return `null` rather than raise) and returns the parsed cookie list
exactly when the snapshot file exists and parses to a JSON array; a missing
file, a parse failure, or any non-array JSON value gives `null`. -/
theorem load_cookies_total_spec (f : SnapshotFile) :
    loadCookiesFromFile SnapshotFile.missing = none ∧
    loadCookiesFromFile SnapshotFile.unparseable = none ∧
    ∀ xs, loadCookiesFromFile f = some xs ↔ f = SnapshotFile.parsed (JsonVal.arr xs) := by
  refine ⟨rfl, rfl, fun xs => ⟨?_, ?_⟩⟩
  · cases f with
    | missing => intro h; cases h
    | unparseable => intro h; cases h
    | parsed j =>
      cases j with
      | arr ys =>
        intro h
        simp only [loadCookiesFromFile, Option.some.injEq] at h
        rw [h]
      | obj => intro h; cases h
      | str s => intro h; cases h
      | num n => intro h; cases h
      | boolean b => intro h; cases h
      | null => intro h; cases h
  · intro h
    rw [h]
    rfl

/-- C8, counterexample: the claim says startup proceeds whenever all required
keys are set.  Setting `THEME_ID` to the empty string means the key is set,
yet `!THEME_ID` is true in JavaScript (the empty string is falsy), so the
sync tool exits with code 1. -/
theorem startup_exits_on_empty_string_key :
    (some "" : Option String) ≠ none ∧
    syncStartup ⟨some "a", some "b", some ""⟩ = [StartAct.exitCode 1] := by
  decide

/-- C8, amended: a required key that is falsy in JavaScript — and for a
string-valued environment variable falsy means exactly unset or the empty
string, as the first conjunct records — makes each tool exit with code 1
without any network action in its startup trace; when every required key is
set to a non-empty string, the sync tool proceeds to watching and the listing
tool proceeds to its network calls. -/
theorem startup_requires_nonempty_config (e : Env) :
    (∀ x : Option String, envTruthy x = false ↔ (x = none ∨ x = some "")) ∧
    ((envTruthy e.zidEmail = false ∨ envTruthy e.zidPassword = false ∨
        envTruthy e.themeId = false) →
      syncStartup e = [StartAct.exitCode 1] ∧ StartAct.network ∉ syncStartup e) ∧
    ((envTruthy e.zidEmail = false ∨ envTruthy e.zidPassword = false) →
      listToolStartup e = [StartAct.exitCode 1] ∧ StartAct.network ∉ listToolStartup e) ∧
    (envTruthy e.zidEmail = true → envTruthy e.zidPassword = true →
      envTruthy e.themeId = true →
      syncStartup e = [StartAct.watch] ∧ listToolStartup e = [StartAct.network]) := by
  refine ⟨fun x => ?_, fun h => ?_, fun h => ?_, fun h1 h2 h3 => ?_⟩
  · cases x with
    | none => simp [envTruthy]
    | some s => simp [envTruthy]
  · have hf : (envTruthy e.zidEmail && envTruthy e.zidPassword && envTruthy e.themeId) = false := by
      rcases h with h | h | h <;> simp [h]
    refine ⟨?_, ?_⟩ <;> simp [syncStartup, hf]
  · have hf : (envTruthy e.zidEmail && envTruthy e.zidPassword) = false := by
      rcases h with h | h <;> simp [h]
    refine ⟨?_, ?_⟩ <;> simp [listToolStartup, hf]
  · constructor <;> simp [syncStartup, listToolStartup, h1, h2, h3]

/-- Witness for `startup_requires_nonempty_config`: an email set to the empty
string makes both tools exit with code 1 and no network action, an unset
email does too, and a fully populated environment proceeds. -/
theorem startup_requires_nonempty_config_witness :
    (syncStartup ⟨some "", some "b", some "t"⟩ = [StartAct.exitCode 1] ∧
      StartAct.network ∉ syncStartup ⟨some "", some "b", some "t"⟩) ∧
    (listToolStartup ⟨some "", some "b", some "t"⟩ = [StartAct.exitCode 1] ∧
      StartAct.network ∉ listToolStartup ⟨some "", some "b", some "t"⟩) ∧
    (syncStartup ⟨none, some "b", some "t"⟩ = [StartAct.exitCode 1] ∧
      StartAct.network ∉ syncStartup ⟨none, some "b", some "t"⟩) ∧
    (syncStartup ⟨some "a", some "b", some "t"⟩ = [StartAct.watch] ∧
      listToolStartup ⟨some "a", some "b", some "t"⟩ = [StartAct.network]) :=
  ⟨(startup_requires_nonempty_config ⟨some "", some "b", some "t"⟩).2.1 (Or.inl (by decide)),
   (startup_requires_nonempty_config ⟨some "", some "b", some "t"⟩).2.2.1 (Or.inl (by decide)),
   (startup_requires_nonempty_config ⟨none, some "b", some "t"⟩).2.1 (Or.inl (by decide)),
   (startup_requires_nonempty_config ⟨some "a", some "b", some "t"⟩).2.2.2
     (by decide) (by decide) (by decide)⟩

/-- C10: when the cookie set lacks `XSRF-TOKEN`, `extractTokensFromCookies`
has already overwritten the module-level `cookie` variable with the new
serialization by the time it throws, while `xsrfToken` keeps its previous
value — the failure is not atomic. -/
theorem extract_overwrites_cookie_before_throw (st : SessionState) (cs : List Cookie)
    (h : findXsrf cs = none) :
    extractTokensFromCookies st cs =
      ({ cookie := serializeCookies cs, xsrfToken := st.xsrfToken },
        some ExtractErr.sessionError) := by
  simp [extractTokensFromCookies, h]

/-- Witness for `extract_overwrites_cookie_before_throw`: old state
`cookie = "x"`, `xsrfToken = "t"`, new cookie set `[session=z]`. -/
theorem extract_overwrites_cookie_before_throw_witness :
    extractTokensFromCookies ⟨['x'], ['t']⟩ [⟨"session", ['z']⟩] =
      ({ cookie := serializeCookies [⟨"session", ['z']⟩], xsrfToken := ['t'] },
        some ExtractErr.sessionError) :=
  extract_overwrites_cookie_before_throw ⟨['x'], ['t']⟩ [⟨"session", ['z']⟩] (by decide)


/-! ### Supporting lemmas about the `decodeURIComponent` model -/

/-- Unfolding `uriTokenize` on a full `%XX` escape. -/
theorem uriTokenize_percent3 (h1 h2 : Char) (rest2 : List Char) :
    uriTokenize ('%' :: h1 :: h2 :: rest2) =
      match hexVal h1, hexVal h2 with
      | some a, some b =>
        (uriTokenize rest2).map (fun items => UriItem.byte (16 * a + b) :: items)
      | _, _ => none := rfl

/-- Unfolding `uriTokenize` on a non-escape character. -/
theorem uriTokenize_lit_step (c : Char) (rest : List Char) (hc : c ≠ '%') :
    uriTokenize (c :: rest) = (uriTokenize rest).map (fun items => UriItem.lit c :: items) := by
  rw [uriTokenize.eq_def]
  simp only []
  rw [if_neg hc]

/-- A byte token adds one to the byte count. -/
theorem countBytes_byte (b : Nat) (items : List UriItem) :
    countBytes (UriItem.byte b :: items) = countBytes items + 1 := by
  simp [countBytes, List.countP_cons]

/-- A literal token leaves the byte count unchanged. -/
theorem countBytes_lit (c : Char) (items : List UriItem) :
    countBytes (UriItem.lit c :: items) = countBytes items := by
  simp [countBytes, List.countP_cons]

/-- Tokenising accounts for every character: each literal token covers one
source character and each byte token covers a three-character `%XX` escape. -/
theorem uriTokenize_length (n : Nat) :
    ∀ (s : List Char), s.length ≤ n → ∀ items, uriTokenize s = some items →
      s.length = items.length + 2 * countBytes items := by
  induction n with
  | zero =>
    intro s hs items h
    have hnil : s = [] := List.eq_nil_of_length_eq_zero (Nat.le_zero.mp hs)
    subst hnil
    have h' : some ([] : List UriItem) = some items := h
    cases h'
    simp [countBytes]
  | succ n ih =>
    intro s hs items h
    rcases s with _ | ⟨c, rest⟩
    · have h' : some ([] : List UriItem) = some items := h
      cases h'
      simp [countBytes]
    · by_cases hc : c = '%'
      · subst hc
        rcases rest with _ | ⟨h1, rest1⟩
        · cases h
        rcases rest1 with _ | ⟨h2, rest2⟩
        · cases h
        rw [uriTokenize_percent3] at h
        rcases hha : hexVal h1 with _ | a
        · rw [hha] at h
          simp at h
        rcases hhb : hexVal h2 with _ | b
        · rw [hha, hhb] at h
          simp at h
        rw [hha, hhb] at h
        have hch : (uriTokenize rest2).map
            (fun items => UriItem.byte (16 * a + b) :: items) = some items := h
        rcases hrec : uriTokenize rest2 with _ | items2
        · rw [hrec] at hch
          simp at hch
        · rw [hrec] at hch
          simp only [Option.map_some', Option.some.injEq] at hch
          subst hch
          have hlen : rest2.length ≤ n := by
            simp only [List.length_cons] at hs
            omega
          have := ih rest2 hlen items2 hrec
          rw [countBytes_byte]
          simp only [List.length_cons]
          omega
      · rw [uriTokenize_lit_step c rest hc] at h
        rcases hrec : uriTokenize rest with _ | items2
        · rw [hrec] at h
          simp at h
        · rw [hrec] at h
          simp only [Option.map_some', Option.some.injEq] at h
          subst h
          have hlen : rest.length ≤ n := by
            simp only [List.length_cons] at hs
            omega
          have := ih rest hlen items2 hrec
          rw [countBytes_lit]
          simp only [List.length_cons]
          omega

/-- A string without `%` tokenises to all-literal tokens. -/
theorem uriTokenize_no_percent (s : List Char) (h : '%' ∉ s) :
    uriTokenize s = some (s.map UriItem.lit) := by
  induction s with
  | nil => rfl
  | cons c rest ih =>
    have hc : c ≠ '%' := by
      intro hcc
      exact h (hcc ▸ List.mem_cons_self c rest)
    have hrest : '%' ∉ rest := fun hm => h (List.mem_cons_of_mem _ hm)
    rw [uriTokenize_lit_step c rest hc, ih hrest]
    rfl

/-- A string containing `%` that tokenises successfully has at least one byte
token. -/
theorem uriTokenize_percent_byte (s : List Char) :
    ∀ items, uriTokenize s = some items → '%' ∈ s → 1 ≤ countBytes items := by
  induction s with
  | nil =>
    intro items h hp
    cases hp
  | cons c rest ih =>
    intro items h hp
    by_cases hc : c = '%'
    · subst hc
      rcases rest with _ | ⟨h1, rest1⟩
      · cases h
      rcases rest1 with _ | ⟨h2, rest2⟩
      · cases h
      rw [uriTokenize_percent3] at h
      rcases hha : hexVal h1 with _ | a
      · rw [hha] at h
        simp at h
      rcases hhb : hexVal h2 with _ | b
      · rw [hha, hhb] at h
        simp at h
      rw [hha, hhb] at h
      have hch : (uriTokenize rest2).map
          (fun items => UriItem.byte (16 * a + b) :: items) = some items := h
      rcases hrec : uriTokenize rest2 with _ | items2
      · rw [hrec] at hch
        simp at hch
      · rw [hrec] at hch
        simp only [Option.map_some', Option.some.injEq] at hch
        subst hch
        rw [countBytes_byte]
        omega
    · rw [uriTokenize_lit_step c rest hc] at h
      rcases hrec : uriTokenize rest with _ | items2
      · rw [hrec] at h
        simp at h
      · rw [hrec] at h
        simp only [Option.map_some', Option.some.injEq] at h
        subst h
        have hp' : '%' ∈ rest := by
          rcases List.mem_cons.mp hp with h' | h'
          · exact absurd h'.symm hc
          · exact h'
        have := ih items2 hrec hp'
        rw [countBytes_lit]
        exact this

set_option maxRecDepth 8192 in
/-- Every successful `utf8Step` consumes at least one token. -/
theorem utf8Step_consumes (items : List UriItem) (c : Char) (rest : List UriItem)
    (h : utf8Step items = some (c, rest)) : rest.length < items.length := by
  unfold utf8Step at h
  split at h
  · cases h
  · cases h
    simp only [List.length_cons]
    omega
  · split at h
    · cases h
      simp only [List.length_cons]
      omega
    · split at h
      · split at h
        · split at h
          · cases h
            simp only [List.length_cons]
            omega
          · cases h
        · cases h
      · split at h
        · split at h
          · split at h
            · cases h
              simp only [List.length_cons]
              omega
            · cases h
          · cases h
        · split at h
          · split at h
            · split at h
              · cases h
                simp only [List.length_cons]
                omega
              · cases h
            · cases h
          · cases h

/-- Any fuel at least the token count gives the same decode result. -/
theorem utf8DecodeLoop_fuel_irrel : ∀ (fuel : Nat) (items : List UriItem),
    items.length ≤ fuel →
    utf8DecodeLoop fuel items = utf8DecodeLoop items.length items := by
  intro fuel
  induction fuel using Nat.strong_induction_on with
  | _ fuel ih =>
    intro items hlen
    rcases items with _ | ⟨i, rest⟩
    · cases fuel <;> rfl
    · rcases fuel with _ | fuel
      · simp at hlen
      · show (match utf8Step (i :: rest) with
            | none => none
            | some (c, rest2) => (utf8DecodeLoop fuel rest2).map (fun t => c :: t)) =
          (match utf8Step (i :: rest) with
            | none => none
            | some (c, rest2) => (utf8DecodeLoop rest.length rest2).map (fun t => c :: t))
        rcases hstep : utf8Step (i :: rest) with _ | ⟨c, rest2⟩
        · rfl
        · show (utf8DecodeLoop fuel rest2).map (fun t => c :: t) =
            (utf8DecodeLoop rest.length rest2).map (fun t => c :: t)
          have hcons := utf8Step_consumes _ _ _ hstep
          simp only [List.length_cons] at hcons hlen
          have h1 : utf8DecodeLoop fuel rest2 = utf8DecodeLoop rest2.length rest2 :=
            ih fuel (Nat.lt_succ_self _) rest2 (by omega)
          have h2 : utf8DecodeLoop rest.length rest2 = utf8DecodeLoop rest2.length rest2 :=
            ih rest.length (by omega) rest2 (by omega)
          rw [h1, h2]

/-- All-literal token lists decode to themselves. -/
theorem utf8DecodeItems_map_lit (s : List Char) :
    utf8DecodeItems (s.map UriItem.lit) = some s := by
  induction s with
  | nil => rfl
  | cons c rest ih =>
    have h1 : utf8DecodeItems (UriItem.lit c :: rest.map UriItem.lit) =
        (utf8DecodeLoop (rest.map UriItem.lit).length (rest.map UriItem.lit)).map
          (fun t => c :: t) := rfl
    rw [List.map_cons, h1]
    have h2 : utf8DecodeLoop (rest.map UriItem.lit).length (rest.map UriItem.lit) =
        utf8DecodeItems (rest.map UriItem.lit) := rfl
    rw [h2, ih]
    rfl

/-- Inversion for the UTF-8 decoder: a successful decode of a non-empty token
list produces a first character from at least one consumed token, decoding a
strictly shorter suffix. -/
theorem utf8DecodeItems_inv (items : List UriItem) (t : List Char)
    (ht : utf8DecodeItems items = some t) :
    (items = [] ∧ t = []) ∨
    ∃ c t2 rest, t = c :: t2 ∧ utf8DecodeItems rest = some t2 ∧
      rest.length + 1 ≤ items.length := by
  rcases items with _ | ⟨i, rest⟩
  · left
    have h' : some ([] : List Char) = some t := ht
    cases h'
    exact ⟨rfl, rfl⟩
  · right
    have ht' : (match utf8Step (i :: rest) with
        | none => none
        | some (c, rest2) => (utf8DecodeLoop rest.length rest2).map (fun t => c :: t)) =
          some t := ht
    rcases hstep : utf8Step (i :: rest) with _ | ⟨c, rest2⟩
    · rw [hstep] at ht'
      cases ht'
    · rw [hstep] at ht'
      change Option.map (fun t => c :: t) (utf8DecodeLoop rest.length rest2) = some t at ht'
      have hcons := utf8Step_consumes _ _ _ hstep
      simp only [List.length_cons] at hcons
      rcases hrec : utf8DecodeLoop rest.length rest2 with _ | t2
      · rw [hrec] at ht'
        cases ht'
      · rw [hrec] at ht'
        simp only [Option.map_some', Option.some.injEq] at ht'
        have hdec : utf8DecodeItems rest2 = some t2 := by
          have hirr := utf8DecodeLoop_fuel_irrel rest.length rest2 (by omega)
          show utf8DecodeLoop rest2.length rest2 = some t2
          rw [← hirr]
          exact hrec
        exact ⟨c, t2, rest2, ht'.symm, hdec, by simp only [List.length_cons]; omega⟩

/-- The decoder never produces more characters than it consumes tokens. -/
theorem utf8DecodeItems_length (n : Nat) :
    ∀ items, (items : List UriItem).length ≤ n → ∀ t, utf8DecodeItems items = some t →
      t.length ≤ items.length := by
  induction n with
  | zero =>
    intro items hlen t ht
    rcases utf8DecodeItems_inv items t ht with ⟨_, rfl⟩ | ⟨c, t2, rest, rfl, _, hle⟩
    · simp
    · omega
  | succ n ih =>
    intro items hlen t ht
    rcases utf8DecodeItems_inv items t ht with ⟨_, rfl⟩ | ⟨c, t2, rest, rfl, hrec, hle⟩
    · simp
    · have := ih rest (by omega) t2 hrec
      simp only [List.length_cons]
      omega

/-- A percent-free string decodes to itself. -/
theorem decodeURIComponent_no_percent (s : List Char) (h : '%' ∉ s) :
    decodeURIComponent s = some s := by
  simp only [decodeURIComponent, uriTokenize_no_percent s h, Option.some_bind]
  exact utf8DecodeItems_map_lit s

/-- A successful decode that returns its input unchanged can only happen on a
percent-free input: any consumed `%XX` escape shrinks the output by at least
two characters. -/
theorem decodeURIComponent_fixed_no_percent (s t : List Char)
    (hd : decodeURIComponent s = some t) (he : t = s) : '%' ∉ s := by
  intro hp
  rcases htok : uriTokenize s with _ | items
  · simp only [decodeURIComponent, htok, Option.none_bind] at hd
    cases hd
  · simp only [decodeURIComponent, htok, Option.some_bind] at hd
    have hlen := uriTokenize_length s.length s (le_refl _) items htok
    have hbytes := uriTokenize_percent_byte s items htok hp
    have hout := utf8DecodeItems_length items.length items (le_refl _) t hd
    have hts : t.length = s.length := by rw [he]
    omega

/-- Reducing `extractTokensFromCookies` once the `XSRF-TOKEN` lookup has
succeeded. -/
theorem extractTokens_found (st : SessionState) (cs : List Cookie) (c : Cookie)
    (hfind : findXsrf cs = some c) :
    extractTokensFromCookies st cs =
      (match decodeURIComponent c.value with
       | none => ({ st with cookie := serializeCookies cs }, some ExtractErr.uriError)
       | some tok => ({ cookie := serializeCookies cs, xsrfToken := tok }, none)) := by
  unfold extractTokensFromCookies
  rw [hfind]

/-- C9: when extraction succeeds, the stored `xsrfToken` is the
`decodeURIComponent` of the `XSRF-TOKEN` cookie's raw value, and it equals
the raw value exactly when that value contains no `%` (any consumed `%XX`
escape strictly shrinks the decoded string). -/
theorem csrf_token_is_percent_decoded (st st2 : SessionState) (cs : List Cookie) (c : Cookie)
    (hfind : findXsrf cs = some c)
    (hok : extractTokensFromCookies st cs = (st2, none)) :
    decodeURIComponent c.value = some st2.xsrfToken ∧
    (st2.xsrfToken = c.value ↔ '%' ∉ c.value) := by
  rw [extractTokens_found st cs c hfind] at hok
  rcases hdec : decodeURIComponent c.value with _ | tok
  · rw [hdec] at hok
    have hbad := congrArg Prod.snd hok
    simp at hbad
  · rw [hdec] at hok
    have hst2 : ({ cookie := serializeCookies cs, xsrfToken := tok } : SessionState) = st2 :=
      congrArg Prod.fst hok
    subst hst2
    show some tok = some tok ∧ (tok = c.value ↔ '%' ∉ c.value)
    refine ⟨rfl, ?_, ?_⟩
    · intro heq
      exact decodeURIComponent_fixed_no_percent c.value tok hdec heq
    · intro hnp
      have hself := decodeURIComponent_no_percent c.value hnp
      rw [hdec] at hself
      injection hself

/-- Witness for `csrf_token_is_percent_decoded`: the cookie value `a%41`
decodes to `aA`, which differs from the raw value because it contains `%`. -/
theorem csrf_token_is_percent_decoded_witness :
    decodeURIComponent ['a', '%', '4', '1'] = some ['a', 'A'] ∧
    ((['a', 'A'] : List Char) = ['a', '%', '4', '1'] ↔
      '%' ∉ (['a', '%', '4', '1'] : List Char)) :=
  csrf_token_is_percent_decoded ⟨[], []⟩
    ⟨serializeCookies [⟨"XSRF-TOKEN", ['a', '%', '4', '1']⟩], ['a', 'A']⟩
    [⟨"XSRF-TOKEN", ['a', '%', '4', '1']⟩] ⟨"XSRF-TOKEN", ['a', '%', '4', '1']⟩
    (by decide) (by decide)

/-! ### Watcher invariant -/

/-- The timer callback preserves the watcher invariant. -/
theorem fireTimer_inv (dur : Nat) (st : WatchState) (f : Nat) (h : WatchInv dur st) :
    WatchInv dur (fireTimer dur st f) := by
  unfold fireTimer
  by_cases hb : f < st.busyUntil
  · rw [if_pos hb]
    exact h
  · rw [if_neg hb]
    push_neg at hb
    constructor
    · show List.Chain' (fun a b => a + dur ≤ b) (st.cycles ++ [f])
      rw [List.chain'_append]
      refine ⟨h.1, List.chain'_singleton f, ?_⟩
      intro x hx y hy
      simp only [List.head?_cons, Option.mem_def, Option.some.injEq] at hy
      subst hy
      have hxmem : x ∈ st.cycles := by
        obtain ⟨hne, hxl⟩ := List.mem_getLast?_eq_getLast hx
        rw [hxl]
        exact List.getLast_mem hne
      have := h.2 x hxmem
      omega
    · intro cc hcc
      show cc + dur ≤ f + dur
      rcases List.mem_append.mp hcc with hmem | hmem
      · have := h.2 cc hmem
        omega
      · simp only [List.mem_singleton] at hmem
        subst hmem
        omega

/-- Delivering a due timer preserves the invariant. -/
theorem fireDue_inv (dur : Nat) (st : WatchState) (t : Nat) (h : WatchInv dur st) :
    WatchInv dur (fireDue dur st t) := by
  obtain ⟨p, busy, cys⟩ := st
  rcases p with _ | f
  · exact h
  · show WatchInv dur (if f < t then fireTimer dur ⟨some f, busy, cys⟩ f else ⟨some f, busy, cys⟩)
    by_cases hf : f < t
    · rw [if_pos hf]
      exact fireTimer_inv dur _ f h
    · rw [if_neg hf]
      exact h

/-- A raw filesystem event preserves the invariant. -/
theorem rawEvent_inv (debounce dur : Nat) (st : WatchState) (t : Nat) (h : WatchInv dur st) :
    WatchInv dur (rawEvent debounce dur st t) :=
  fireDue_inv dur st t h

/-- Processing every raw event preserves the invariant. -/
theorem foldl_rawEvent_inv (debounce dur : Nat) :
    ∀ (events : List Nat) (st : WatchState), WatchInv dur st →
      WatchInv dur (events.foldl (rawEvent debounce dur) st) := by
  intro events
  induction events with
  | nil => intro st h; exact h
  | cons e rest ih =>
    intro st h
    exact ih _ (rawEvent_inv debounce dur st e h)

/-- The final timer flush preserves the invariant. -/
theorem flushTimer_inv (dur : Nat) (st : WatchState) (h : WatchInv dur st) :
    WatchInv dur (flushTimer dur st) := by
  obtain ⟨p, busy, cys⟩ := st
  rcases p with _ | f
  · exact h
  · exact fireTimer_inv dur _ f h

/-- C3, amended: the in-flight guard guarantees upload cycles never overlap —
consecutive cycle start times are at least one upload duration apart, because
a debounce timer that fires while an upload is in flight is skipped.  (Raw
events arriving during an upload still schedule a debounce timer, so a cycle
can run after the in-flight one completes without any further raw event,
whenever that timer fires after completion.) -/
theorem watcher_cycles_never_overlap (debounce dur : Nat) (events : List Nat) :
    List.Chain' (fun a b => a + dur ≤ b) (runWatcher debounce dur events) := by
  have h0 : WatchInv dur ⟨none, 0, []⟩ := by
    constructor
    · exact List.chain'_nil
    · intro c hc
      cases hc
  exact (flushTimer_inv dur _ (foldl_rawEvent_inv debounce dur events _ h0)).1

/-- C3, counterexample: with the 1-second debounce, an upload lasting 500 ms
and raw events at t=0 and t=1200 ms, the first cycle runs over [1000, 1500);
the second event arrives at 1200, during the upload, and no event arrives
after completion (1500) — yet a second cycle still runs at 2200, because the
event's debounce timer fires after the upload has completed.  So events
arriving during an in-flight upload are not dropped. -/
theorem watcher_deferred_cycle_after_inflight :
    runWatcher 1000 500 [0, 1200] = [1000, 2200] ∧
    1000 < 1200 ∧ 1200 < 1000 + 500 ∧
    0 < 1000 + 500 ∧ 1200 < 1000 + 500 ∧
    1000 + 500 ≤ 2200 := by
  decide

end Vineta
